import Mathlib

/-!
Verification of the inest DI container core.

Shallow embedding of the module-registration / provider-resolution engine
(`src/packages/core/modules/module-registry.ts`,
`src/packages/core/providers/provider-collector.ts`,
`src/packages/core/controllers/controller-registry.ts`).

Tokens are class references, strings or symbols; classes and symbols are
identified by numeric ids, and an environment maps a class id to its
reflected metadata (constructor parameter tokens, `@Inject` overrides,
whether the constructor throws) and a module id to its `@Module` metadata.
The mutable maps of the two singleton services (the module-provider map,
the global-provider set, the provider-definition table and the instance
cache) form one explicit state record that every operation threads.

Recursion in the collector (`collectProviders` / `resolveProvider`) and in
`registerModule` is modelled with explicit fuel: the source recurses on
the JS call stack and has no cycle guard in constructor-dependency
resolution, so the collector functions simply return the state unchanged
when fuel runs out, while `registerModule` returns `none` (the interesting
theorem is that its module-level recursion needs only boundedly much fuel).

Dynamic modules (the `registerDynamicModule` path) are not modelled: every
claim under verification concerns static modules only, so `registerModule`
below is the translation of the static path of the source function.
-/

set_option autoImplicit false
set_option linter.unusedVariables false

namespace Inest

/-- A DI token: a class reference, a string, or a symbol
(classes and symbols identified by numeric id). -/
inductive Token where
  | cls (id : Nat)
  | str (s : String)
  | sym (id : Nat)
  deriving DecidableEq, Repr

/-- A JS value as far as the container observes it: `undefined`, `null`,
strings, numbers, booleans, class references, symbols, and class instances.
An instance records which class was constructed; the resolved constructor
arguments are threaded through `getProviderDependencies` for their state
effects but are not recorded in the instance value, since no modelled
query inspects them. -/
inductive Value where
  | vUndefined
  | vNull
  | vBool (b : Bool)
  | vNat (n : Nat)
  | vStr (s : String)
  | vSym (id : Nat)
  | vClass (id : Nat)
  | vInst (classId : Nat)
  deriving DecidableEq, Repr

/-- JS truthiness of a token (`if (!providerToken) return;`):
the empty string is the only falsy token. -/
def Token.truthy : Token → Bool
  | .str s => decide (s ≠ "")
  | _ => true

/-- The value a token denotes when the token itself is cached
(the `providers.set(token, token)` branch). -/
def Token.toValue : Token → Value
  | .cls id => .vClass id
  | .str s => .vStr s
  | .sym id => .vSym id

/-- What a `useFactory` function does when invoked: return a value
synchronously, return a `Promise` (the cache write is deferred beyond the
synchronous step modelled here), or throw. -/
inductive FactoryResult where
  | ret (v : Value)
  | retPromise
  | fthrows

/-- A `useFactory` function, as a function of its resolved `inject` arguments. -/
def FactorySpec := List Value → FactoryResult

/-- An object-shaped provider declaration `{ provide, useClass?, useValue?,
useFactory?, inject?, useExisting? }`. `hasUseValue` models the JS
`"useValue" in provider` key-presence test and `useValue` the key's value
(`vUndefined` when the key is present but set to `undefined`). -/
structure ObjProvider where
  provide : Token
  useClass : Option Nat := none
  hasUseValue : Bool := false
  useValue : Value := .vUndefined
  useFactory : Option FactorySpec := none
  inject : List Token := []
  useExisting : Option Token := none

/-- A provider declaration: a class shorthand, a bare string or symbol
token, or the object form. -/
inductive ProviderDecl where
  | classP (id : Nat)
  | strP (s : String)
  | symP (id : Nat)
  | objP (o : ObjProvider)

/-- JS truthiness of a provider declaration (`if (!provider) return;`):
only the empty-string declaration is falsy. -/
def ProviderDecl.truthy : ProviderDecl → Bool
  | .strP s => decide (s ≠ "")
  | _ => true

/-- The token of a provider declaration: `provide` for the object form,
the declaration itself otherwise (module-registry and collector both use
this computation). -/
def providerTokenOf : ProviderDecl → Token
  | .classP id => .cls id
  | .strP s => .str s
  | .symP id => .sym id
  | .objP o => o.provide

/-- Reflected metadata of a class: `design:paramtypes`, the
`@Inject`-declared per-index overrides (`self:paramtypes`), and whether
its constructor throws when invoked. -/
structure ClassInfo where
  paramtypes : List Token := []
  selfDeps : List (Nat × Token) := []
  ctorThrows : Bool := false

/-- The `@Module` metadata of a module class (static modules only; absent
metadata reads as `[]` / `false`, mirroring `Reflect.getMetadata(...) ?? []`). -/
structure ModuleInfo where
  imports : List Nat := []
  providers : List ProviderDecl := []
  exports : List Token := []
  isGlobal : Bool := false
  controllers : List Nat := []

/-- The reflection environment: class metadata and module metadata by id. -/
structure Env where
  classes : List (Nat × ClassInfo) := []
  modules : List (Nat × ModuleInfo) := []

/-- Log entries emitted by the registry, collector and controller registry
(only the call site and the token are tracked, not the message text). -/
inductive LogEntry where
  | errInstantiateClass (t : Token)
  | errInstantiateUseClass (t : Token)
  | errFactory (t : Token)
  | warnNoUse (t : Token)
  | errUnresolved (t : Token)
  | logInitController (t : Token)
  | errInitController (t : Token)
  deriving DecidableEq, Repr

/-- The combined mutable state of the `ModuleRegistry` and the
`ProviderCollector` singletons, plus two instrumentation fields: the list
of class ids whose constructor was invoked (in call order), and the log. -/
structure AppState where
  /-- the `ModuleRegistry.ModuleProviders` map (module to token set) -/
  moduleProviders : List (Nat × List Token) := []
  /-- the `ModuleRegistry.GlobalProviders` token set -/
  globalProviders : List Token := []
  /-- the `ModuleRegistry.providerDefinitions` map (token to definition) -/
  providerDefinitions : List (Token × ProviderDecl) := []
  /-- the `ProviderCollector.providers` instance cache (token to value) -/
  providers : List (Token × Value) := []
  /-- instrumentation: class ids in constructor-invocation order -/
  instantiations : List Nat := []
  /-- instrumentation: emitted log entries in order -/
  logs : List LogEntry := []

instance : Inhabited AppState := ⟨{}⟩

section AList

variable {K V : Type} [DecidableEq K]

/-- JS `Map.get`: value of the first entry with the given key. -/
def alistGet? : List (K × V) → K → Option V
  | [], _ => none
  | (k', v) :: r, k => if k' = k then some v else alistGet? r k

/-- JS `Map.has`. -/
def alistHas (l : List (K × V)) (k : K) : Bool :=
  (alistGet? l k).isSome

/-- JS `Map.set`: replace in place (keeping insertion order) or append. -/
def alistSet : List (K × V) → K → V → List (K × V)
  | [], k, v => [(k, v)]
  | (k', v') :: r, k, v =>
      if k' = k then (k, v) :: r else (k', v') :: alistSet r k v

/-- JS `Set.add` on an insertion-ordered list. -/
def setAdd [DecidableEq V] (l : List V) (v : V) : List V :=
  if v ∈ l then l else l ++ [v]

end AList

/-- Reads `Reflect.getMetadata` for a class, with empty defaults. -/
def Env.classInfo (e : Env) (id : Nat) : ClassInfo :=
  (alistGet? e.classes id).getD {}

/-- Reads `Reflect.getMetadata` for a module, with empty defaults. -/
def Env.moduleInfo (e : Env) (id : Nat) : ModuleInfo :=
  (alistGet? e.modules id).getD {}

/-- Translation of `ModuleRegistry.findProviderDefinitionByToken`. -/
def findProviderDefinitionByToken (s : AppState) (t : Token) : Option ProviderDecl :=
  alistGet? s.providerDefinitions t

/-- Translation of `ModuleRegistry.getModuleProviders`. -/
def getModuleProviders (s : AppState) (m : Nat) : Option (List Token) :=
  alistGet? s.moduleProviders m

/-- Translation of `ModuleRegistry.getGlobalProviders`. -/
def getGlobalProviders (s : AppState) : List Token :=
  s.globalProviders

/-- Rest of the early-return guard of `collectProviders` beyond the cache
`has` test: `typeof provider !== "object" || !("useValue" in provider) ||
providers.get(token) !== undefined`. -/
def collectGuardRest : ProviderDecl → Option Value → Bool
  | .objP o, cached => (!o.hasUseValue) || decide (cached ≠ some Value.vUndefined)
  | _, _ => true

/-- The `new useClass(...deps)` step shared by the class-shorthand and
`useClass` branches of `collectProviders`: record the constructor call,
then either cache the instance or (constructor threw) log `failLog` and
cache `null`. -/
def instantiateClass (env : Env) (c : Nat) (token : Token)
    (failLog : LogEntry) (s : AppState) : AppState :=
  let s := { s with instantiations := s.instantiations ++ [c] }
  if (env.classInfo c).ctorThrows then
    { s with providers := alistSet s.providers token .vNull,
             logs := s.logs ++ [failLog] }
  else
    { s with providers := alistSet s.providers token (.vInst c) }

/-- The no-`use*` fallback branch of `collectProviders`: warn, then cache
the token itself as the value. -/
def noUseBranch (o : ObjProvider) (s : AppState) : AppState :=
  { s with logs := s.logs ++ [.warnNoUse o.provide],
           providers := alistSet s.providers o.provide o.provide.toValue }

/-- The string / unresolved tail of `resolveProvider` (steps 3 and 4). -/
def resolveFallback (token : Token) (s : AppState) : Value × AppState :=
  match token with
  | .str str => (.vStr str, s)
  | _ => (.vUndefined, { s with logs := s.logs ++ [.errUnresolved token] })

mutual

/-- Translation of `ProviderCollector.collectProviders`. Fuel models the JS call stack
(exhaustion returns the state unchanged); every internal `try/catch` of the
source is reflected here, so the function never "throws". -/
def collectProviders (env : Env) : Nat → ProviderDecl → AppState → AppState
  | 0, _, s => s
  | fuel + 1, provider, s =>
    let providerToken := providerTokenOf provider
    if alistHas s.providers providerToken
        && collectGuardRest provider (alistGet? s.providers providerToken) then
      s
    else
      match provider with
      | .classP c =>
          -- class shorthand: isModule(provider) holds for every class value
          let r := getProviderDependencies env fuel c providerToken s
          instantiateClass env c providerToken (.errInstantiateClass providerToken) r.2
      | .objP o =>
          match o.useClass with
          | some c =>
              let r := getProviderDependencies env fuel c o.provide s
              instantiateClass env c o.provide (.errInstantiateUseClass o.provide) r.2
          | none =>
            -- `provider.useValue !== undefined` (an absent key reads as undefined)
            let uv := if o.hasUseValue then o.useValue else .vUndefined
            if uv ≠ Value.vUndefined then
              { s with providers := alistSet s.providers o.provide uv }
            else
              match o.useFactory with
              | some f =>
                  let r := resolveInjects env fuel o.inject s
                  match f r.1 with
                  | .ret v =>
                      { r.2 with providers := alistSet r.2.providers o.provide v }
                  | .retPromise => r.2
                  | .fthrows =>
                      { r.2 with providers := alistSet r.2.providers o.provide .vNull,
                                 logs := r.2.logs ++ [.errFactory o.provide] }
              | none =>
                match o.useExisting with
                | some u =>
                    if u.truthy then
                      let r := resolveProvider env fuel u s
                      { r.2 with providers := alistSet r.2.providers o.provide r.1 }
                    else noUseBranch o s
                | none => noUseBranch o s
      | .strP _ => s
      | .symP _ => s
termination_by structural fuel p s => fuel

/-- Translation of `ProviderCollector.getProviderDependencies` (the argument is always a
class in the modelled call sites, so the non-function warning branch is
not reachable). -/
def getProviderDependencies (env : Env) : Nat → Nat → Token → AppState →
    List Value × AppState
  | 0, _, _, s => ([], s)
  | fuel + 1, classId, _providerToken, s =>
    let info := env.classInfo classId
    resolveParams env fuel info.paramtypes info.selfDeps 0 s
termination_by structural fuel c t s => fuel

/-- The indexed `paramtypes.map` of `getProviderDependencies`: per index,
the `@Inject` override (if any) wins over the reflected parameter type,
then the token is resolved. -/
def resolveParams (env : Env) : Nat → List Token → List (Nat × Token) → Nat →
    AppState → List Value × AppState
  | 0, _, _, _, s => ([], s)
  | _, [], _, _, s => ([], s)
  | fuel + 1, pt :: rest, selfDeps, idx, s =>
    let tok := match selfDeps.find? (fun d => d.1 == idx) with
      | some d => d.2
      | none => pt
    let r := resolveProvider env fuel tok s
    let rs := resolveParams env fuel rest selfDeps (idx + 1) r.2
    (r.1 :: rs.1, rs.2)
termination_by structural fuel l d i s => fuel

/-- The `injects.map(t => this.resolveProvider(t))` of the factory branch. -/
def resolveInjects (env : Env) : Nat → List Token → AppState →
    List Value × AppState
  | 0, _, s => ([], s)
  | _, [], s => ([], s)
  | fuel + 1, t :: ts, s =>
    let r := resolveProvider env fuel t s
    let rs := resolveInjects env fuel ts r.2
    (r.1 :: rs.1, rs.2)
termination_by structural fuel l s => fuel

/-- Translation of `ProviderCollector.resolveProvider`: (1) instance-cache hit; (2) stored
provider definition (the JS `if (providerDefinition)` truthiness test),
collect it, re-check the cache; (3) string token returned verbatim;
(4) log an error and return `undefined`. -/
def resolveProvider (env : Env) : Nat → Token → AppState → Value × AppState
  | 0, _, s => (.vUndefined, s)
  | fuel + 1, token, s =>
    match alistGet? s.providers token with
    | some v => (v, s)
    | none =>
      match findProviderDefinitionByToken s token with
      | some d =>
          if d.truthy then
            let s1 := collectProviders env fuel d s
            match alistGet? s1.providers token with
            | some v => (v, s1)
            | none => resolveFallback token s1
          else resolveFallback token s
      | none => resolveFallback token s
termination_by structural fuel t s => fuel

end

/-- The `forEach` body shared by `addProviderTokenToModules` and
`registerProviderInModules`: add the token to the module's provider-token
set when that module has one, and to the global set when applicable. -/
def addTokenStep (providerToken : Token) (isGlobalProvider : Bool)
    (s : AppState) (md : Nat) : AppState :=
  let s := match alistGet? s.moduleProviders md with
    | some toks =>
        { s with moduleProviders :=
            alistSet s.moduleProviders md (setAdd toks providerToken) }
    | none => s
  if isGlobalProvider then
    { s with globalProviders := setAdd s.globalProviders providerToken }
  else s

/-- Translation of `ModuleRegistry.addProviderTokenToModules`: add an already-computed
token to each listed module's provider-token set (only if that module is
registered) and, per iteration, to the global set when applicable. -/
def addProviderTokenToModules (providerToken : Token) (isGlobalProvider : Bool)
    (modulesToAddTo : List Nat) (s : AppState) : AppState :=
  if !providerToken.truthy then s
  else
    modulesToAddTo.foldl (addTokenStep providerToken isGlobalProvider) s

/-- Translation of `ModuleRegistry.registerProviderInModules`: record the declaration's
token in each listed module's set (and globally when applicable), store
the declaration in the provider-definition table if the token has none,
then forward the declaration to the collector. -/
def registerProviderInModules (env : Env) (cf : Nat) (provider : ProviderDecl)
    (isGlobalProvider : Bool) (modulesToRegisterIn : List Nat) (s : AppState) : AppState :=
  if !provider.truthy then s
  else
    let providerToken := providerTokenOf provider
    let s := modulesToRegisterIn.foldl
      (addTokenStep providerToken isGlobalProvider) s
    let s :=
      if !alistHas s.providerDefinitions providerToken then
        { s with providerDefinitions :=
            alistSet s.providerDefinitions providerToken provider }
      else s
    collectProviders env cf provider s

/-- The own-provider loop of `registerModule` (the block the source labels
phase "2"): for each declared provider, add its token to the global set if
the module is global, then register it in this module. -/
def registerOwnProviders (env : Env) (cf : Nat) (providersList : List ProviderDecl)
    (isGlobalProviderModule : Bool) (m : Nat) (s : AppState) : AppState :=
  providersList.foldl (fun s provider =>
    let providerToken := providerTokenOf provider
    let s :=
      if isGlobalProviderModule then
        { s with globalProviders := setAdd s.globalProviders providerToken }
      else s
    registerProviderInModules env cf provider isGlobalProviderModule [m] s) s

/-- The `importedProviders.find(...)` of the export loop: the FIRST
declaration whose token equals the exported token. -/
def exportFindProvider (importedProviders : List ProviderDecl) (e : Token) :
    Option ProviderDecl :=
  importedProviders.find? (fun p => decide (providerTokenOf p = e))

/-- The token (non-module) arm of the export loop: match the exported
token against the FIRST own declaration with that token; if found, add it
to the global set when the module is global, propagate its visibility to
the parent chain, store its definition if the token has none, and collect
the matched declaration. -/
def exportTokenCase (env : Env) (cf : Nat) (e : Token)
    (importedProviders : List ProviderDecl) (isGlobalProviderModule : Bool)
    (parentModules : List Nat) (s : AppState) : AppState :=
  match exportFindProvider importedProviders e with
  | some moduleProvider =>
      let s :=
        if isGlobalProviderModule then
          { s with globalProviders := setAdd s.globalProviders e }
        else s
      let s := addProviderTokenToModules e isGlobalProviderModule
        parentModules s
      let s :=
        if !alistHas s.providerDefinitions e then
          { s with providerDefinitions :=
              alistSet s.providerDefinitions e moduleProvider }
        else s
      collectProviders env cf moduleProvider s
  | none => s

mutual

/-- Translation of `ModuleRegistry.registerModule`, static path. Phases in source order:
already-registered guard, mark registered, process imports, process
exports (the block the source labels "3"), process own providers (the
block the source labels "2"). The dynamic-module branch and the
provider-collector wiring check are not modelled (all claims concern
static modules with the collector attached). `cf` is the fuel handed to
every collector call; the function's own fuel bounds the module-level
recursion and `none` reports its exhaustion. -/
def registerModule (env : Env) (cf : Nat) (fuel : Nat) (m : Nat)
    (parentModules : List Nat) (s : AppState) : Option AppState :=
  if alistHas s.moduleProviders m then some s
  else
    match fuel with
    | 0 => none
    | fuel' + 1 =>
      let s := { s with moduleProviders := alistSet s.moduleProviders m [] }
      let info := env.moduleInfo m
      match registerImports env cf fuel' info.imports m parentModules s with
      | none => none
      | some s1 =>
        match registerExports env cf fuel' info.exports info.providers
            info.isGlobal parentModules s1 with
        | none => none
        | some s2 =>
          some (registerOwnProviders env cf info.providers info.isGlobal m s2)

/-- The import loop of `registerModule`: each import is registered with
this module prepended to the parent chain. Imports are static module
classes here (the dynamic branch is not modelled). -/
def registerImports (env : Env) (cf : Nat) (fuel : Nat) (imports : List Nat)
    (m : Nat) (parentModules : List Nat) (s : AppState) : Option AppState :=
  match imports with
  | [] => some s
  | im :: rest =>
    match registerModule env cf fuel im (m :: parentModules) s with
    | none => none
    | some s1 => registerImports env cf fuel rest m parentModules s1

/-- The export loop of `registerModule`. A class entry is a module
(`isModule` accepts every class) and is re-registered into the parent
chain only; a token entry is handled by `exportTokenCase`. -/
def registerExports (env : Env) (cf : Nat) (fuel : Nat) (exportsList : List Token)
    (importedProviders : List ProviderDecl) (isGlobalProviderModule : Bool)
    (parentModules : List Nat) (s : AppState) : Option AppState :=
  match exportsList with
  | [] => some s
  | e :: rest =>
    match e with
    | .cls c =>
        match registerModule env cf fuel c parentModules s with
        | none => none
        | some s1 =>
            registerExports env cf fuel rest importedProviders
              isGlobalProviderModule parentModules s1
    | _ =>
        registerExports env cf fuel rest importedProviders
          isGlobalProviderModule parentModules
          (exportTokenCase env cf e importedProviders isGlobalProviderModule
            parentModules s)

end

/-- Translation of `ControllerRegistry.initializeControllers`: log, then hand each
controller class to `collectProviders`. The source wraps the body in
`try/catch` that logs and rethrows, but `collectProviders` catches every
constructor/factory throw internally (each `new` and factory call in it is
inside its own `try`), so that catch never fires on a constructor error;
the translation is therefore total. -/
def initializeControllers (env : Env) (cf : Nat) (controllers : List Nat)
    (s : AppState) : AppState :=
  controllers.foldl (fun s c =>
    let s := { s with logs := s.logs ++ [.logInitController (.cls c)] }
    collectProviders env cf (.classP c) s) s

/-- The resolution order exactly as the specification words it, with the
collection step abstracted: (1) Instance Cache hit returns immediately;
(2) a stored Provider Declaration found by token is collected
synchronously and the cache re-checked; (3) a string token is returned
verbatim; (4) otherwise an error is logged and `undefined` returned. -/
def resolveProviderSpecOrder (collect : ProviderDecl → AppState → AppState)
    (token : Token) (s : AppState) : Value × AppState :=
  match alistGet? s.providers token with
  | some v => (v, s)
  | none =>
    match alistGet? s.providerDefinitions token with
    | some d =>
        let s1 := collect d s
        match alistGet? s1.providers token with
        | some v => (v, s1)
        | none =>
          match token with
          | .str str => (.vStr str, s1)
          | _ => (.vUndefined, { s1 with logs := s1.logs ++ [.errUnresolved token] })
    | none =>
      match token with
      | .str str => (.vStr str, s)
      | _ => (.vUndefined, { s with logs := s.logs ++ [.errUnresolved token] })

/-- How many modules known to the environment are not yet registered
(do not yet have a provider-token set). -/
def unregCount (env : Env) (s : AppState) : Nat :=
  ((env.modules.map Prod.fst).filter
    (fun u => !alistHas s.moduleProviders u)).length

section AListLemmas

variable {K V : Type} [DecidableEq K]

theorem alistGet?_set_self (l : List (K × V)) (k : K) (v : V) :
    alistGet? (alistSet l k v) k = some v := by
  induction l with
  | nil => simp [alistSet, alistGet?]
  | cons hd tl ih =>
      obtain ⟨k', v'⟩ := hd
      by_cases h : k' = k <;> simp [alistSet, alistGet?, h, ih]

theorem alistGet?_set_ne (l : List (K × V)) (k k' : K) (v : V) (h : k' ≠ k) :
    alistGet? (alistSet l k v) k' = alistGet? l k' := by
  induction l with
  | nil => simp [alistSet, alistGet?, Ne.symm h]
  | cons hd tl ih =>
      obtain ⟨k₀, v₀⟩ := hd
      by_cases h0 : k₀ = k
      · subst h0
        simp [alistSet, alistGet?, Ne.symm h]
      · by_cases h1 : k₀ = k' <;> simp [alistSet, alistGet?, h0, h1, h, ih]

theorem alistHas_set (l : List (K × V)) (k k' : K) (v : V)
    (h : alistHas l k' = true) : alistHas (alistSet l k v) k' = true := by
  by_cases hk : k' = k
  · subst hk; simp [alistHas, alistGet?_set_self]
  · simpa [alistHas, alistGet?_set_ne l k k' v hk] using h

end AListLemmas

/-- Collecting a bare string provider declaration is a no-op on the state
(both the guard-return and the string branch leave the state unchanged). -/
theorem collectProviders_strP (env : Env) (fuel : Nat) (a : String) (s : AppState) :
    collectProviders env fuel (.strP a) s = s := by
  cases fuel with
  | zero => simp [collectProviders]
  | succ n =>
      simp only [collectProviders]
      split <;> rfl

theorem resolveParams_nil (env : Env) (fuel : Nat) (sd : List (Nat × Token))
    (i : Nat) (s : AppState) : resolveParams env fuel [] sd i s = ([], s) := by
  cases fuel <;> simp [resolveParams]

theorem resolveInjects_nil (env : Env) (fuel : Nat) (s : AppState) :
    resolveInjects env fuel [] s = ([], s) := by
  cases fuel <;> simp [resolveInjects]

/-- Claim C5 (counterexample): declaring `useValue: undefined` does not make
resolution return `undefined` — the `useValue !== undefined` dispatch skips
the value branch, the no-`use*` fallback caches the token itself, and
resolution returns the token, not `undefined`. -/
theorem c5_useValue_counterexample :
    (resolveProvider {} 2 (.str "U")
        (collectProviders {} 2
          (.objP { provide := .str "U", hasUseValue := true }) {})).1
      = Value.vStr "U"
    ∧ (resolveProvider {} 2 (.str "U")
        (collectProviders {} 2
          (.objP { provide := .str "U", hasUseValue := true }) {})).1
      ≠ Value.vUndefined := by
  refine ⟨by decide, by decide⟩

/-- Claim C5 (amended): for every registered `{provide: T, useValue: v}`
with `v` DEFINED (including `null`, `false`, `0`, `""`), when `T`'s cache
entry is absent or explicitly `undefined`, collection caches exactly `v`,
resolution returns exactly `v`, and no constructor is invoked. (For
`v = undefined` the no-`use*` fallback caches the token itself instead —
see the counterexample.) -/
theorem c5_useValue_resolves (env : Env) (cf n : Nat) (T : Token) (v : Value)
    (s : AppState) (hv : v ≠ Value.vUndefined)
    (hfresh : alistGet? s.providers T = none
      ∨ alistGet? s.providers T = some Value.vUndefined) :
    alistGet? (collectProviders env (cf + 1)
        (.objP { provide := T, hasUseValue := true, useValue := v }) s).providers T
      = some v
    ∧ (resolveProvider env (n + 1) T (collectProviders env (cf + 1)
        (.objP { provide := T, hasUseValue := true, useValue := v }) s)).1 = v
    ∧ (collectProviders env (cf + 1)
        (.objP { provide := T, hasUseValue := true, useValue := v }) s).instantiations
      = s.instantiations := by
  have hcol : collectProviders env (cf + 1)
      (.objP { provide := T, hasUseValue := true, useValue := v }) s
      = { s with providers := alistSet s.providers T v } := by
    rcases hfresh with h | h <;>
      simp [collectProviders, providerTokenOf, alistHas, collectGuardRest, h, hv]
  refine ⟨?_, ?_, ?_⟩
  · rw [hcol]; simp [alistGet?_set_self]
  · rw [hcol]; simp [resolveProvider, alistGet?_set_self]
  · rw [hcol]

/-- Witness for C5 at `T = "W"`, `v = "w"` on the empty state. -/
theorem c5_useValue_resolves_witness :
    alistGet? (collectProviders {} (0 + 1)
        (.objP { provide := .str "W", hasUseValue := true, useValue := .vStr "w" }) {}).providers
        (.str "W")
      = some (.vStr "w")
    ∧ (resolveProvider {} (0 + 1) (.str "W") (collectProviders {} (0 + 1)
        (.objP { provide := .str "W", hasUseValue := true, useValue := .vStr "w" }) {})).1
      = .vStr "w"
    ∧ (collectProviders {} (0 + 1)
        (.objP { provide := .str "W", hasUseValue := true, useValue := .vStr "w" }) {}).instantiations
      = AppState.instantiations {} :=
  c5_useValue_resolves {} 0 0 (.str "W") (.vStr "w") {} (by decide) (Or.inl (by decide))

/-- Claim C10: an object-shaped declaration `{provide: T}` with none of
`useClass` / `useFactory` / `useExisting` and `useValue` absent or
`undefined` hits the no-`use*` fallback: a warning is logged, the token
itself is cached, and resolution returns the token (not `undefined`). -/
theorem c10_no_use_property_caches_token (env : Env) (cf n : Nat) (T : Token)
    (hb : Bool) (uv : Value) (s : AppState)
    (hfresh : alistHas s.providers T = false)
    (huv : (if hb then uv else Value.vUndefined) = Value.vUndefined) :
    alistGet? (collectProviders env (cf + 1)
        (.objP { provide := T, hasUseValue := hb, useValue := uv }) s).providers T
      = some T.toValue
    ∧ (resolveProvider env (n + 1) T (collectProviders env (cf + 1)
        (.objP { provide := T, hasUseValue := hb, useValue := uv }) s)).1 = T.toValue
    ∧ LogEntry.warnNoUse T ∈ (collectProviders env (cf + 1)
        (.objP { provide := T, hasUseValue := hb, useValue := uv }) s).logs := by
  have hcol : collectProviders env (cf + 1)
      (.objP { provide := T, hasUseValue := hb, useValue := uv }) s
      = { s with logs := s.logs ++ [.warnNoUse T],
                 providers := alistSet s.providers T T.toValue } := by
    simp [collectProviders, providerTokenOf, hfresh, huv, noUseBranch]
  refine ⟨?_, ?_, ?_⟩
  · rw [hcol]; simp [alistGet?_set_self]
  · rw [hcol]; simp [resolveProvider, alistGet?_set_self]
  · rw [hcol]; simp

/-- Witness for C10 at `T = "X"` with the `useValue` key absent. -/
theorem c10_no_use_property_caches_token_witness :
    alistGet? (collectProviders {} (0 + 1)
        (.objP { provide := .str "X", hasUseValue := false, useValue := .vUndefined }) {}).providers
        (.str "X")
      = some (Token.str "X").toValue
    ∧ (resolveProvider {} (0 + 1) (.str "X") (collectProviders {} (0 + 1)
        (.objP { provide := .str "X", hasUseValue := false, useValue := .vUndefined }) {})).1
      = (Token.str "X").toValue
    ∧ LogEntry.warnNoUse (.str "X") ∈ (collectProviders {} (0 + 1)
        (.objP { provide := .str "X", hasUseValue := false, useValue := .vUndefined }) {}).logs :=
  c10_no_use_property_caches_token {} 0 0 (.str "X") false .vUndefined {}
    (by decide) (by decide)

/-- Claim C7: a class-shaped provider — in BOTH forms, class shorthand
and `useClass` — whose (dependency-free) constructor throws is caught:
its token caches `null` and the branch-specific error is logged, and
collection of a sibling value provider afterwards still succeeds. The
siblings resolve to their declared value while each failed token
resolves to `null` (no exception escapes; `collectProviders` is a total
function of the state). -/
theorem c7_failed_provider_isolation (env : Env) (cf n : Nat) (c : Nat)
    (Tu T2 : Token) (v : Value) (s : AppState)
    (hthrow : (env.classInfo c).ctorThrows = true)
    (hparams : (env.classInfo c).paramtypes = [])
    (hf1 : alistGet? s.providers (.cls c) = none)
    (hfu : alistGet? s.providers Tu = none)
    (hf2 : alistGet? s.providers T2 = none)
    (hneu : Tu ≠ .cls c)
    (hne2c : T2 ≠ .cls c)
    (hne2u : T2 ≠ Tu)
    (hv : v ≠ Value.vUndefined) :
    alistGet? (collectProviders env (cf + 2)
        (.objP { provide := T2, hasUseValue := true, useValue := v })
        (collectProviders env (cf + 2) (.objP { provide := Tu, useClass := some c })
          (collectProviders env (cf + 2) (.classP c) s))).providers (.cls c)
      = some .vNull
    ∧ alistGet? (collectProviders env (cf + 2)
        (.objP { provide := T2, hasUseValue := true, useValue := v })
        (collectProviders env (cf + 2) (.objP { provide := Tu, useClass := some c })
          (collectProviders env (cf + 2) (.classP c) s))).providers Tu
      = some .vNull
    ∧ (resolveProvider env (n + 1) (.cls c) (collectProviders env (cf + 2)
        (.objP { provide := T2, hasUseValue := true, useValue := v })
        (collectProviders env (cf + 2) (.objP { provide := Tu, useClass := some c })
          (collectProviders env (cf + 2) (.classP c) s)))).1 = .vNull
    ∧ (resolveProvider env (n + 1) Tu (collectProviders env (cf + 2)
        (.objP { provide := T2, hasUseValue := true, useValue := v })
        (collectProviders env (cf + 2) (.objP { provide := Tu, useClass := some c })
          (collectProviders env (cf + 2) (.classP c) s)))).1 = .vNull
    ∧ (resolveProvider env (n + 1) T2 (collectProviders env (cf + 2)
        (.objP { provide := T2, hasUseValue := true, useValue := v })
        (collectProviders env (cf + 2) (.objP { provide := Tu, useClass := some c })
          (collectProviders env (cf + 2) (.classP c) s)))).1 = v
    ∧ LogEntry.errInstantiateClass (.cls c) ∈ (collectProviders env (cf + 2)
        (.objP { provide := T2, hasUseValue := true, useValue := v })
        (collectProviders env (cf + 2) (.objP { provide := Tu, useClass := some c })
          (collectProviders env (cf + 2) (.classP c) s))).logs
    ∧ LogEntry.errInstantiateUseClass Tu ∈ (collectProviders env (cf + 2)
        (.objP { provide := T2, hasUseValue := true, useValue := v })
        (collectProviders env (cf + 2) (.objP { provide := Tu, useClass := some c })
          (collectProviders env (cf + 2) (.classP c) s))).logs := by
  have hcol1 : collectProviders env (cf + 2) (.classP c) s
      = { s with instantiations := s.instantiations ++ [c],
                 providers := alistSet s.providers (.cls c) .vNull,
                 logs := s.logs ++ [.errInstantiateClass (.cls c)] } := by
    simp [collectProviders, providerTokenOf, alistHas, hf1,
      getProviderDependencies, hparams, resolveParams_nil, instantiateClass,
      hthrow]
  have hcol2 : collectProviders env (cf + 2)
      (.objP { provide := Tu, useClass := some c })
      (collectProviders env (cf + 2) (.classP c) s)
      = { s with instantiations := s.instantiations ++ [c, c],
                 providers := alistSet (alistSet s.providers (.cls c) .vNull) Tu .vNull,
                 logs := s.logs ++ [.errInstantiateClass (.cls c),
                                    .errInstantiateUseClass Tu] } := by
    rw [hcol1]
    simp [collectProviders, providerTokenOf, alistHas,
      alistGet?_set_ne s.providers (.cls c) Tu .vNull hneu, hfu,
      getProviderDependencies, hparams, resolveParams_nil, instantiateClass,
      hthrow]
  have hcol3 : collectProviders env (cf + 2)
      (.objP { provide := T2, hasUseValue := true, useValue := v })
      (collectProviders env (cf + 2) (.objP { provide := Tu, useClass := some c })
        (collectProviders env (cf + 2) (.classP c) s))
      = { s with instantiations := s.instantiations ++ [c, c],
                 providers := alistSet
                   (alistSet (alistSet s.providers (.cls c) .vNull) Tu .vNull) T2 v,
                 logs := s.logs ++ [.errInstantiateClass (.cls c),
                                    .errInstantiateUseClass Tu] } := by
    rw [hcol2]
    simp [collectProviders, providerTokenOf, alistHas, collectGuardRest,
      alistGet?_set_ne (alistSet s.providers (.cls c) .vNull) Tu T2 .vNull hne2u,
      alistGet?_set_ne s.providers (.cls c) T2 .vNull hne2c, hf2, hv]
  refine ⟨?_, ?_, ?_, ?_, ?_, ?_, ?_⟩
  · rw [hcol3]
    simp [alistGet?_set_ne _ T2 (Token.cls c) v (Ne.symm hne2c),
      alistGet?_set_ne _ Tu (Token.cls c) Value.vNull (Ne.symm hneu),
      alistGet?_set_self]
  · rw [hcol3]
    simp [alistGet?_set_ne _ T2 Tu v (Ne.symm hne2u), alistGet?_set_self]
  · rw [hcol3]
    simp [resolveProvider,
      alistGet?_set_ne _ T2 (Token.cls c) v (Ne.symm hne2c),
      alistGet?_set_ne _ Tu (Token.cls c) Value.vNull (Ne.symm hneu),
      alistGet?_set_self]
  · rw [hcol3]
    simp [resolveProvider,
      alistGet?_set_ne _ T2 Tu v (Ne.symm hne2u), alistGet?_set_self]
  · rw [hcol3]
    simp [resolveProvider, alistGet?_set_self]
  · rw [hcol3]; simp
  · rw [hcol3]; simp

/-- Environment for the C7 witness: class 3 has a throwing constructor. -/
def c7Env : Env := { classes := [(3, { ctorThrows := true })] }

/-- Final collector state of the C7 witness scenario: the throwing class 3
as a shorthand provider, the same class bound to `"U"` via `useClass`,
then the sibling `"S"` bound by value. -/
def c7State : AppState :=
  collectProviders c7Env (0 + 2)
    (.objP { provide := .str "S", hasUseValue := true, useValue := .vStr "s" })
    (collectProviders c7Env (0 + 2) (.objP { provide := .str "U", useClass := some 3 })
      (collectProviders c7Env (0 + 2) (.classP 3) {}))

/-- Witness for C7: both the shorthand token (class 3) and the `useClass`
token `"U"` cache and resolve to `null` with their errors logged, while
the sibling `"S"` still resolves to `"s"`. -/
theorem c7_failed_provider_isolation_witness :
    alistGet? c7State.providers (.cls 3) = some .vNull
    ∧ alistGet? c7State.providers (.str "U") = some .vNull
    ∧ (resolveProvider c7Env (0 + 1) (.cls 3) c7State).1 = .vNull
    ∧ (resolveProvider c7Env (0 + 1) (.str "U") c7State).1 = .vNull
    ∧ (resolveProvider c7Env (0 + 1) (.str "S") c7State).1 = .vStr "s"
    ∧ LogEntry.errInstantiateClass (.cls 3) ∈ c7State.logs
    ∧ LogEntry.errInstantiateUseClass (.str "U") ∈ c7State.logs :=
  c7_failed_provider_isolation c7Env 0 0 3 (.str "U") (.str "S") (.vStr "s") {}
    (by decide) (by decide) (by decide) (by decide) (by decide) (by decide)
    (by decide) (by decide) (by decide)

/-- Environment for claim C3: controller class 11 has a throwing
constructor, controller class 12 a normal one. -/
def c3Env : Env := { classes := [(11, { ctorThrows := true }), (12, {})] }

/-- Claim C3 (divergence): a controller whose constructor throws during
`initializeControllers` does NOT abort startup. The throw is caught inside
`collectProviders` (shared with ordinary providers), which logs the
provider-path error and caches `null` for the controller's token; the
controller registry's own catch-log-rethrow block never observes it, so
the next controller (class 12) is still initialized. -/
theorem c3_controllerCtorThrow_notRethrown :
    alistGet? (initializeControllers c3Env 2 [11, 12] {}).providers (.cls 11)
      = some .vNull
    ∧ alistGet? (initializeControllers c3Env 2 [11, 12] {}).providers (.cls 12)
      = some (.vInst 12)
    ∧ LogEntry.errInstantiateClass (.cls 11)
        ∈ (initializeControllers c3Env 2 [11, 12] {}).logs
    ∧ LogEntry.errInitController (.cls 11)
        ∉ (initializeControllers c3Env 2 [11, 12] {}).logs
    ∧ LogEntry.logInitController (.cls 12)
        ∈ (initializeControllers c3Env 2 [11, 12] {}).logs := by
  refine ⟨by decide, by decide, by decide, by decide, by decide⟩

/-- Environment for claim C2: one module declaring `"P"` before `"E"` and
exporting `"E"`. -/
def c2Env : Env :=
  { modules := [(0,
      { providers := [.objP { provide := .str "P", hasUseValue := true, useValue := .vStr "p" },
                      .objP { provide := .str "E", hasUseValue := true, useValue := .vStr "e" }],
        exports := [.str "E"] })] }

/-- Claim C2 (divergence): within `registerModule`, the export loop runs
BEFORE the own-provider loop (the source's phase comments number them "3"
and "2" in the opposite order): the exported `"E"` is collected by the
export phase first, so the instance cache lists `"E"` before the earlier
declared `"P"`. Under the claimed providers-then-exports order the cache
would list `"P"` first. -/
theorem c2_exportsBeforeOwnProviders :
    (registerModule c2Env 3 3 0 [] {}).map AppState.providers
      = some [(.str "E", .vStr "e"), (.str "P", .vStr "p")] := by
  simp [c2Env, registerModule, registerImports, registerExports,
    registerOwnProviders, registerProviderInModules, addProviderTokenToModules, addTokenStep, exportTokenCase,
    exportFindProvider, collectProviders, collectGuardRest, providerTokenOf,
    Env.moduleInfo, ProviderDecl.truthy, Token.truthy, alistGet?, alistHas,
    alistSet, setAdd]

/-- Environment for claim C1: module 0 declares token `"T"` twice (values
`va` then `vb`) and exports `"T"`; module 1 imports module 0. -/
def c1Env (va vb : Value) : Env :=
  { modules := [(0,
      { providers := [.objP { provide := .str "T", hasUseValue := true, useValue := va },
                      .objP { provide := .str "T", hasUseValue := true, useValue := vb }],
        exports := [.str "T"] }),
    (1, { imports := [0] })] }

/-- Claim C1 (counterexample): with providers
`[{provide: "T", useValue: "a"}, {provide: "T", useValue: "b"}]` and
`exports: ["T"]`, resolving `"T"` after registering the importing module
yields `"a"` — the FIRST declaration — not `"b"` as the claim states. -/
theorem c1_lastDeclaredWins_counterexample :
    (registerModule (c1Env (.vStr "a") (.vStr "b")) 3 3 1 [] {}).map
        (fun s => (resolveProvider (c1Env (.vStr "a") (.vStr "b")) 1 (.str "T") s).1)
      = some (.vStr "a")
    ∧ some (Value.vStr "a") ≠ some (Value.vStr "b") := by
  constructor
  · simp [c1Env, registerModule, registerImports, registerExports,
      registerOwnProviders, registerProviderInModules, addProviderTokenToModules, addTokenStep, exportTokenCase,
      exportFindProvider, collectProviders, collectGuardRest, providerTokenOf,
      Env.moduleInfo, ProviderDecl.truthy, Token.truthy, alistGet?, alistHas,
      alistSet, setAdd, resolveProvider, findProviderDefinitionByToken]
  · decide

/-- Claim C1 (amended): the FIRST-declared provider wins. The export loop
matches with `Array.find` (first hit) and collects it; when the
own-provider loop later reaches the second declaration, the token is
already cached with a defined value, so the collection guard makes it a
no-op. Resolving the token from the importing module yields the value of
the earlier declaration. -/
theorem c1_firstDeclaredWins (va vb : Value) (hva : va ≠ Value.vUndefined) :
    (registerModule (c1Env va vb) 3 3 1 [] {}).map
        (fun s => (resolveProvider (c1Env va vb) 1 (.str "T") s).1)
      = some va := by
  simp [c1Env, registerModule, registerImports, registerExports,
    registerOwnProviders, registerProviderInModules, addProviderTokenToModules, addTokenStep, exportTokenCase,
    exportFindProvider, collectProviders, collectGuardRest, providerTokenOf,
    Env.moduleInfo, ProviderDecl.truthy, Token.truthy, alistGet?, alistHas,
    alistSet, setAdd, resolveProvider, findProviderDefinitionByToken, hva]

/-- Witness for C1 (amended) at `va = "a"`, `vb = "b"`. -/
theorem c1_firstDeclaredWins_witness :
    (registerModule (c1Env (.vStr "a") (.vStr "b")) 3 3 1 [] {}).map
        (fun s => (resolveProvider (c1Env (.vStr "a") (.vStr "b")) 1 (.str "T") s).1)
      = some (.vStr "a") :=
  c1_firstDeclaredWins (.vStr "a") (.vStr "b") (by decide)

/-- Environment for claim C4: module 2 holds class provider 5; modules 3
and 4 both import module 2; module 6 imports both importers. -/
def c4Env : Env :=
  { classes := [(5, {})],
    modules := [(2, { providers := [.classP 5] }),
                (3, { imports := [2] }),
                (4, { imports := [2] }),
                (6, { imports := [3, 4] })] }

/-- Claim C4: `registerModule` is idempotent per static module. An
already-registered module returns immediately (for every environment,
fuel, parent chain and state); in the shared-import scenario the class
provider's constructor runs exactly once, the provider-token map holds
exactly one entry for the shared module, and registering it again
directly afterwards changes nothing. -/
theorem c4_registerModule_idempotent :
    (∀ (env : Env) (cf fuel m : Nat) (ps : List Nat) (s : AppState),
        alistHas s.moduleProviders m = true →
        registerModule env cf fuel m ps s = some s)
    ∧ (registerModule c4Env 3 9 6 [] {}).map AppState.instantiations = some [5]
    ∧ (registerModule c4Env 3 9 6 [] {}).map
        (fun s => (s.moduleProviders.filter (fun p => decide (p.1 = 2))).length)
      = some 1
    ∧ (registerModule c4Env 3 9 6 [] {}).bind
        (fun s => registerModule c4Env 3 9 2 [] s)
      = registerModule c4Env 3 9 6 [] {} := by
  refine ⟨?_, ?_, ?_, ?_⟩
  · intro env cf fuel m ps s h
    rw [registerModule.eq_def]
    simp [h]
  all_goals
    simp [c4Env, registerModule, registerImports, registerExports,
      registerOwnProviders, registerProviderInModules, addProviderTokenToModules, addTokenStep, exportTokenCase,
      exportFindProvider, collectProviders, collectGuardRest, providerTokenOf,
      getProviderDependencies, resolveParams, instantiateClass,
      Env.moduleInfo, Env.classInfo, ProviderDecl.truthy, Token.truthy,
      alistGet?, alistHas, alistSet, setAdd]

/-- Witness for C4's universally quantified guard conjunct: a state whose
provider-token map already holds module 2 is returned unchanged. -/
theorem c4_registerModule_idempotent_witness :
    registerModule c4Env 3 9 2 [] { moduleProviders := [(2, [])] }
      = some { moduleProviders := [(2, [])] } :=
  c4_registerModule_idempotent.1 c4Env 3 9 2 [] { moduleProviders := [(2, [])] }
    (by decide)

/-- Claim C6: `resolveProvider` performs exactly the four-step lookup the
specification describes — instance-cache hit, stored-definition collect
and re-check, string verbatim, logged error with `undefined` — stated as
an equality with `resolveProviderSpecOrder`, the order transcribed from
the specification's words. (The only textual difference, the JS
truthiness test on the stored definition, is unobservable: the single
falsy definition is the bare `""` declaration, whose collection is a
no-op.) -/
theorem c6_resolveProvider_lookup_order (env : Env) (n : Nat) (t : Token) (s : AppState) :
    resolveProvider env (n + 1) t s
      = resolveProviderSpecOrder (collectProviders env n) t s := by
  simp only [resolveProvider, resolveProviderSpecOrder, findProviderDefinitionByToken]
  cases h1 : alistGet? s.providers t with
  | some v => rfl
  | none =>
    cases h2 : alistGet? s.providerDefinitions t with
    | none => cases t <;> simp [resolveFallback]
    | some d =>
      by_cases hd : d.truthy
      · simp only [hd, if_true]
        cases h3 : alistGet? (collectProviders env n d s).providers t with
        | some v => rfl
        | none => cases t <;> simp [resolveFallback]
      · have hds : d = .strP "" := by
          cases d with
          | strP a =>
              by_cases ha : a = ""
              · rw [ha]
              · exact absurd (by simp [ProviderDecl.truthy, ha]) hd
          | classP c => exact absurd (by simp [ProviderDecl.truthy]) hd
          | symP i => exact absurd (by simp [ProviderDecl.truthy]) hd
          | objP o => exact absurd (by simp [ProviderDecl.truthy]) hd
        subst hds
        dsimp only
        rw [collectProviders_strP, h1]
        simp only [hd, if_false]
        cases t <;> simp [resolveFallback]

def setVis (s : AppState) (mp : List (Nat × List Token)) (gp : List Token) : AppState :=
  { s with moduleProviders := mp, globalProviders := gp }

theorem setVis_providers (s : AppState) (mp : List (Nat × List Token)) (gp : List Token) :
    (setVis s mp gp).providers = s.providers := rfl

theorem setVis_providerDefinitions (s : AppState) (mp : List (Nat × List Token)) (gp : List Token) :
    (setVis s mp gp).providerDefinitions = s.providerDefinitions := rfl

theorem collectProviders_symP (env : Env) (fuel : Nat) (i : Nat) (s : AppState) :
    collectProviders env fuel (.symP i) s = s := by
  cases fuel with
  | zero => simp [collectProviders]
  | succ n =>
      simp only [collectProviders]
      split <;> rfl

theorem instantiateClass_vis (env : Env) (c : Nat) (t : Token) (fl : LogEntry)
    (s : AppState) (mp : List (Nat × List Token)) (gp : List Token) :
    instantiateClass env c t fl (setVis s mp gp)
      = setVis (instantiateClass env c t fl s) mp gp := by
  simp only [instantiateClass, setVis]
  split <;> rfl

theorem noUseBranch_vis (o : ObjProvider) (s : AppState)
    (mp : List (Nat × List Token)) (gp : List Token) :
    noUseBranch o (setVis s mp gp) = setVis (noUseBranch o s) mp gp := rfl

theorem resolveFallback_vis (t : Token) (s : AppState)
    (mp : List (Nat × List Token)) (gp : List Token) :
    resolveFallback t (setVis s mp gp)
      = ((resolveFallback t s).1, setVis (resolveFallback t s).2 mp gp) := by
  cases t <;> rfl

theorem collector_vis (env : Env) : ∀ fuel : Nat,
    (∀ p s mp gp, collectProviders env fuel p (setVis s mp gp)
        = setVis (collectProviders env fuel p s) mp gp)
    ∧ (∀ c t s mp gp, getProviderDependencies env fuel c t (setVis s mp gp)
        = ((getProviderDependencies env fuel c t s).1,
           setVis (getProviderDependencies env fuel c t s).2 mp gp))
    ∧ (∀ pts sd i s mp gp, resolveParams env fuel pts sd i (setVis s mp gp)
        = ((resolveParams env fuel pts sd i s).1,
           setVis (resolveParams env fuel pts sd i s).2 mp gp))
    ∧ (∀ ts s mp gp, resolveInjects env fuel ts (setVis s mp gp)
        = ((resolveInjects env fuel ts s).1,
           setVis (resolveInjects env fuel ts s).2 mp gp))
    ∧ (∀ t s mp gp, resolveProvider env fuel t (setVis s mp gp)
        = ((resolveProvider env fuel t s).1,
           setVis (resolveProvider env fuel t s).2 mp gp)) := by
  intro fuel
  induction fuel with
  | zero =>
      refine ⟨?_, ?_, ?_, ?_, ?_⟩ <;> intros <;>
        simp [collectProviders, getProviderDependencies, resolveParams,
          resolveInjects, resolveProvider]
  | succ n ih =>
    obtain ⟨ihc, ihg, ihp, ihi, ihr⟩ := ih
    refine ⟨?_, ?_, ?_, ?_, ?_⟩
    · intro p s mp gp
      cases p with
      | strP a => rw [collectProviders_strP, collectProviders_strP]
      | symP i => rw [collectProviders_symP, collectProviders_symP]
      | classP c =>
          simp only [collectProviders, providerTokenOf, setVis_providers]
          rw [apply_ite (fun st => setVis st mp gp)]
          by_cases hg : (alistHas s.providers (.cls c)
              && collectGuardRest (.classP c) (alistGet? s.providers (.cls c))) = true
          · rw [if_pos hg, if_pos hg]
          · rw [if_neg hg, if_neg hg]
            rw [ihg, instantiateClass_vis]
      | objP o =>
          simp only [collectProviders, providerTokenOf, setVis_providers]
          rw [apply_ite (fun st => setVis st mp gp)]
          by_cases hg : (alistHas s.providers o.provide
              && collectGuardRest (.objP o) (alistGet? s.providers o.provide)) = true
          · rw [if_pos hg, if_pos hg]
          · rw [if_neg hg, if_neg hg]
            cases o.useClass with
            | some c =>
                simp only
                rw [ihg, instantiateClass_vis]
            | none =>
                simp only
                rw [apply_ite (fun st => setVis st mp gp)]
                by_cases huv :
                    (if o.hasUseValue then o.useValue else Value.vUndefined)
                      ≠ Value.vUndefined
                · rw [if_pos huv, if_pos huv]
                  rfl
                · rw [if_neg huv, if_neg huv]
                  cases o.useFactory with
                  | some f =>
                      simp only
                      rw [ihi]
                      dsimp only
                      split <;> rfl
                  | none =>
                      simp only
                      cases o.useExisting with
                      | some u =>
                          simp only
                          by_cases ht : u.truthy = true
                          · rw [if_pos ht, if_pos ht, ihr]
                            rfl
                          · rw [if_neg ht, if_neg ht]
                            exact noUseBranch_vis o s mp gp
                      | none => exact noUseBranch_vis o s mp gp
    · intro c t s mp gp
      simp only [getProviderDependencies]
      exact ihp _ _ _ _ _ _
    · intro pts sd i s mp gp
      cases pts with
      | nil => simp [resolveParams]
      | cons pt rest =>
          simp only [resolveParams]
          rw [ihr, ihp]
    · intro ts s mp gp
      cases ts with
      | nil => simp [resolveInjects]
      | cons t rest =>
          simp only [resolveInjects]
          rw [ihr, ihi]
    · intro t s mp gp
      simp only [resolveProvider, findProviderDefinitionByToken,
        setVis_providers, setVis_providerDefinitions]
      cases h1 : alistGet? s.providers t with
      | some v => rfl
      | none =>
        cases h2 : alistGet? s.providerDefinitions t with
        | none =>
            dsimp only
            exact resolveFallback_vis t s mp gp
        | some d =>
            dsimp only
            by_cases hd : d.truthy = true
            · rw [if_pos hd, if_pos hd, ihc]
              simp only [setVis_providers]
              cases h3 : alistGet? (collectProviders env n d s).providers t with
              | some v => rfl
              | none => exact resolveFallback_vis t _ mp gp
            · rw [if_neg hd, if_neg hd]
              exact resolveFallback_vis t s mp gp

/-- Claim C8: resolution ignores module-scoped visibility entirely.
`resolveProvider` takes no module argument, and replacing the per-module
provider-token map and the global-provider set by ANYTHING neither
changes the resolved value nor is observed or modified in any other way:
the per-module provider-token sets are never consulted during resolution,
which reads only the instance cache and the provider-definition table. -/
theorem c8_resolution_ignores_module_scope (env : Env) (fuel : Nat) (t : Token)
    (s : AppState) (mp : List (Nat × List Token)) (gp : List Token) :
    resolveProvider env fuel t (setVis s mp gp)
      = ((resolveProvider env fuel t s).1,
         setVis (resolveProvider env fuel t s).2 mp gp) :=
  (collector_vis env fuel).2.2.2.2 t s mp gp

/-- The collector never touches the module-provider map. -/
theorem collectProviders_moduleProviders (env : Env) (fuel : Nat)
    (p : ProviderDecl) (s : AppState) :
    (collectProviders env fuel p s).moduleProviders = s.moduleProviders := by
  have h := (collector_vis env fuel).1 p s s.moduleProviders s.globalProviders
  have he : setVis s s.moduleProviders s.globalProviders = s := rfl
  rw [he] at h
  have h2 := congrArg AppState.moduleProviders h
  simpa [setVis] using h2

theorem addTokenStep_mp_has (t : Token) (g : Bool) (s : AppState) (md : Nat)
    (k : Nat) (hk : alistHas s.moduleProviders k = true) :
    alistHas (addTokenStep t g s md).moduleProviders k = true := by
  unfold addTokenStep
  cases hmd : alistGet? s.moduleProviders md with
  | none => simp only [hmd]; split <;> exact hk
  | some toks =>
      simp only [hmd]
      split <;> exact alistHas_set _ _ _ _ hk

/-- A fold whose every step preserves membership of a key in the
module-provider map preserves it overall. -/
theorem foldl_mp_has {A : Type} (f : AppState → A → AppState)
    (hstep : ∀ s a k, alistHas s.moduleProviders k = true →
      alistHas (f s a).moduleProviders k = true) :
    ∀ (l : List A) (s : AppState) (k : Nat),
      alistHas s.moduleProviders k = true →
      alistHas (l.foldl f s).moduleProviders k = true := by
  intro l
  induction l with
  | nil => intro s k hk; simpa using hk
  | cons a rest ih =>
      intro s k hk
      exact ih (f s a) k (hstep s a k hk)

theorem addProviderTokenToModules_mp_has (t : Token) (g : Bool)
    (mods : List Nat) (s : AppState) (k : Nat)
    (hk : alistHas s.moduleProviders k = true) :
    alistHas (addProviderTokenToModules t g mods s).moduleProviders k = true := by
  unfold addProviderTokenToModules
  split
  · exact hk
  · exact foldl_mp_has _ (addTokenStep_mp_has t g) mods s k hk

theorem registerProviderInModules_mp_has (env : Env) (cf : Nat)
    (p : ProviderDecl) (g : Bool) (mods : List Nat) (s : AppState) (k : Nat)
    (hk : alistHas s.moduleProviders k = true) :
    alistHas (registerProviderInModules env cf p g mods s).moduleProviders k = true := by
  unfold registerProviderInModules
  split
  · exact hk
  · rw [collectProviders_moduleProviders]
    have h2 := foldl_mp_has _ (addTokenStep_mp_has (providerTokenOf p) g) mods s k hk
    split <;> simpa using h2

theorem registerOwnProviders_mp_has (env : Env) (cf : Nat)
    (ps : List ProviderDecl) (g : Bool) (m : Nat) (s : AppState) (k : Nat)
    (hk : alistHas s.moduleProviders k = true) :
    alistHas (registerOwnProviders env cf ps g m s).moduleProviders k = true := by
  unfold registerOwnProviders
  refine foldl_mp_has _ ?_ ps s k hk
  intro s p k hk
  split <;> exact registerProviderInModules_mp_has env cf p g [m] _ k hk

theorem exportTokenCase_mp_has (env : Env) (cf : Nat) (e : Token)
    (ip : List ProviderDecl) (g : Bool) (ps : List Nat) (s : AppState) (k : Nat)
    (hk : alistHas s.moduleProviders k = true) :
    alistHas (exportTokenCase env cf e ip g ps s).moduleProviders k = true := by
  unfold exportTokenCase
  cases hfind : exportFindProvider ip e with
  | none => exact hk
  | some mp0 =>
      dsimp only
      rw [collectProviders_moduleProviders]
      split <;> split <;>
        exact addProviderTokenToModules_mp_has e g ps _ k hk

theorem registerImports_mp_mono_aux (env : Env) (cf fuel : Nat)
    (hM : ∀ (m : Nat) (ps : List Nat) (s s' : AppState),
      registerModule env cf fuel m ps s = some s' →
      ∀ k, alistHas s.moduleProviders k = true → alistHas s'.moduleProviders k = true) :
    ∀ (L : List Nat) (m : Nat) (ps : List Nat) (s s' : AppState),
      registerImports env cf fuel L m ps s = some s' →
      ∀ k, alistHas s.moduleProviders k = true →
        alistHas s'.moduleProviders k = true := by
  intro L
  induction L with
  | nil =>
      intro m ps s s' h k hk
      unfold registerImports at h
      injection h with h
      subst h
      exact hk
  | cons im rest ih =>
      intro m ps s s' h k hk
      unfold registerImports at h
      split at h
      · exact absurd h (by simp)
      · rename_i s1 hrm
        exact ih m ps s1 s' h k (hM im (m :: ps) s s1 hrm k hk)

theorem registerExports_mp_mono_aux (env : Env) (cf fuel : Nat)
    (hM : ∀ (m : Nat) (ps : List Nat) (s s' : AppState),
      registerModule env cf fuel m ps s = some s' →
      ∀ k, alistHas s.moduleProviders k = true → alistHas s'.moduleProviders k = true) :
    ∀ (L : List Token) (ip : List ProviderDecl) (g : Bool) (ps : List Nat)
      (s s' : AppState),
      registerExports env cf fuel L ip g ps s = some s' →
      ∀ k, alistHas s.moduleProviders k = true →
        alistHas s'.moduleProviders k = true := by
  intro L
  induction L with
  | nil =>
      intro ip g ps s s' h k hk
      unfold registerExports at h
      injection h with h
      subst h
      exact hk
  | cons e rest ih =>
      intro ip g ps s s' h k hk
      unfold registerExports at h
      cases e with
      | cls c =>
          dsimp only at h
          split at h
          · exact absurd h (by simp)
          · rename_i s1 hrm
            exact ih ip g ps s1 s' h k (hM c ps s s1 hrm k hk)
      | str a =>
          dsimp only at h
          exact ih ip g ps _ s' h k
            (exportTokenCase_mp_has env cf (.str a) ip g ps s k hk)
      | sym i =>
          dsimp only at h
          exact ih ip g ps _ s' h k
            (exportTokenCase_mp_has env cf (.sym i) ip g ps s k hk)

theorem registerModule_mp_mono : ∀ (fuel : Nat) (env : Env) (cf m : Nat)
    (ps : List Nat) (s s' : AppState),
    registerModule env cf fuel m ps s = some s' →
    ∀ k, alistHas s.moduleProviders k = true →
      alistHas s'.moduleProviders k = true := by
  intro fuel
  induction fuel with
  | zero =>
      intro env cf m ps s s' h k hk
      rw [registerModule.eq_def] at h
      split at h
      · injection h with h; subst h; exact hk
      · exact absurd h (by simp)
  | succ f ihf =>
      intro env cf m ps s s' h k hk
      rw [registerModule.eq_def] at h
      split at h
      · injection h with h; subst h; exact hk
      · dsimp only at h
        split at h
        · exact absurd h (by simp)
        · rename_i s1 hri
          split at h
          · exact absurd h (by simp)
          · rename_i s2 hre
            injection h with h
            subst h
            refine registerOwnProviders_mp_has env cf _ _ m s2 k ?_
            refine registerExports_mp_mono_aux env cf f
              (fun m ps s s' => ihf env cf m ps s s') _ _ _ _ s1 s2 hre k ?_
            refine registerImports_mp_mono_aux env cf f
              (fun m ps s s' => ihf env cf m ps s s') _ m ps _ s1 hri k ?_
            exact alistHas_set s.moduleProviders m k [] hk

theorem alistGet?_eq_none_of_not_mem {K V : Type} [DecidableEq K]
    (l : List (K × V)) (k : K) (h : k ∉ l.map Prod.fst) :
    alistGet? l k = none := by
  induction l with
  | nil => rfl
  | cons hd tl ih =>
      obtain ⟨k', v'⟩ := hd
      simp only [List.map_cons, List.mem_cons] at h
      push_neg at h
      simp [alistGet?, Ne.symm h.1, ih h.2]

/-- An unknown module class reads empty `@Module` metadata. -/
theorem moduleInfo_default (env : Env) (m : Nat)
    (h : m ∉ env.modules.map Prod.fst) : env.moduleInfo m = {} := by
  simp [Env.moduleInfo, alistGet?_eq_none_of_not_mem env.modules m h]

/-- Growing the set of registered modules cannot increase the number of
unregistered ones. -/
theorem unreg_le_of_mp_imp (env : Env) (s s' : AppState)
    (h : ∀ u, alistHas s.moduleProviders u = true →
      alistHas s'.moduleProviders u = true) :
    unregCount env s' ≤ unregCount env s := by
  unfold unregCount
  refine (List.monotone_filter_right _ ?_).length_le
  intro u hu
  simp only [Bool.not_eq_true'] at hu ⊢
  by_cases hcon : alistHas s.moduleProviders u = true
  · exact absurd (h u hcon) (by simp [hu])
  · simpa using hcon

theorem filter_and_ne_lt (l : List Nat) (p : Nat → Bool) (m : Nat)
    (hm : m ∈ l) (hpm : p m = true) :
    (l.filter (fun u => p u && decide (u ≠ m))).length < (l.filter p).length := by
  induction l with
  | nil => cases hm
  | cons a rest ih =>
      by_cases ha : a = m
      · subst ha
        simp only [List.filter_cons, hpm, decide_not, Bool.and_comm]
        simp only [show (decide (a ≠ a)) = false by simp, Bool.false_and, if_false,
          if_true]
        have hle : (rest.filter (fun u => p u && decide (u ≠ a))).length
            ≤ (rest.filter p).length :=
          (List.monotone_filter_right rest (fun u hu => by
            exact (Bool.and_elim_left hu))).length_le
        simpa using Nat.lt_succ_of_le hle
      · have hm' : m ∈ rest := by
          cases hm with
          | head => exact absurd rfl ha
          | tail _ h => exact h
        by_cases hpa : p a = true
        · simp only [List.filter_cons, hpa, Bool.true_and,
            show decide (a ≠ m) = true by simp [ha], if_true, List.length_cons]
          exact Nat.succ_lt_succ (ih hm')
        · simp only [List.filter_cons, show p a = false from by
            simpa using hpa, Bool.false_and, if_false]
          exact ih hm'

/-- Marking a known, not-yet-registered module strictly decreases the
number of unregistered known modules. -/
theorem unreg_mark_lt (env : Env) (m : Nat) (s : AppState)
    (hdom : m ∈ env.modules.map Prod.fst)
    (hnot : alistHas s.moduleProviders m = false) :
    unregCount env
      { s with moduleProviders := alistSet s.moduleProviders m [] }
      < unregCount env s := by
  unfold unregCount
  have hpt : ∀ u ∈ env.modules.map Prod.fst,
      (!alistHas (alistSet s.moduleProviders m ([] : List Token)) u)
        = ((!alistHas s.moduleProviders u) && decide (u ≠ m)) := by
    intro u _
    by_cases hu : u = m
    · subst hu
      simp [alistHas, alistGet?_set_self]
    · simp only [alistHas, alistGet?_set_ne s.moduleProviders m u [] hu,
        decide_eq_true (show u ≠ m from hu), Bool.and_true]
  rw [List.filter_congr hpt]
  exact filter_and_ne_lt (env.modules.map Prod.fst) _ m hdom (by simp [hnot])

/-- A successful `registerModule` never loses registered modules. -/
theorem unreg_le_of_rm (env : Env) (cf fuel m : Nat) (ps : List Nat)
    (s s' : AppState) (h : registerModule env cf fuel m ps s = some s') :
    unregCount env s' ≤ unregCount env s :=
  unreg_le_of_mp_imp env s s'
    (fun u hu => registerModule_mp_mono fuel env cf m ps s s' h u hu)

theorem registerImports_total_aux (env : Env) (cf fuel : Nat)
    (hT : ∀ (m : Nat) (ps : List Nat) (s : AppState), unregCount env s < fuel →
      (registerModule env cf fuel m ps s).isSome = true) :
    ∀ (L : List Nat) (m : Nat) (ps : List Nat) (s : AppState),
      unregCount env s < fuel →
      (registerImports env cf fuel L m ps s).isSome = true := by
  intro L
  induction L with
  | nil => intro m ps s _; unfold registerImports; rfl
  | cons im rest ih =>
      intro m ps s hs
      unfold registerImports
      obtain ⟨s1, hrm⟩ := Option.isSome_iff_exists.mp (hT im (m :: ps) s hs)
      rw [hrm]
      exact ih m ps s1
        (Nat.lt_of_le_of_lt (unreg_le_of_rm env cf fuel im (m :: ps) s s1 hrm) hs)

theorem registerExports_total_aux (env : Env) (cf fuel : Nat)
    (hT : ∀ (m : Nat) (ps : List Nat) (s : AppState), unregCount env s < fuel →
      (registerModule env cf fuel m ps s).isSome = true) :
    ∀ (L : List Token) (ip : List ProviderDecl) (g : Bool) (ps : List Nat)
      (s : AppState),
      unregCount env s < fuel →
      (registerExports env cf fuel L ip g ps s).isSome = true := by
  intro L
  induction L with
  | nil => intro ip g ps s _; unfold registerExports; rfl
  | cons e rest ih =>
      intro ip g ps s hs
      unfold registerExports
      cases e with
      | cls c =>
          dsimp only
          obtain ⟨s1, hrm⟩ := Option.isSome_iff_exists.mp (hT c ps s hs)
          rw [hrm]
          exact ih ip g ps s1
            (Nat.lt_of_le_of_lt (unreg_le_of_rm env cf fuel c ps s s1 hrm) hs)
      | str a =>
          dsimp only
          refine ih ip g ps _ (Nat.lt_of_le_of_lt ?_ hs)
          exact unreg_le_of_mp_imp env s _
            (fun u hu => exportTokenCase_mp_has env cf (.str a) ip g ps s u hu)
      | sym i =>
          dsimp only
          refine ih ip g ps _ (Nat.lt_of_le_of_lt ?_ hs)
          exact unreg_le_of_mp_imp env s _
            (fun u hu => exportTokenCase_mp_has env cf (.sym i) ip g ps s u hu)

theorem registerModule_total : ∀ (fuel : Nat) (env : Env) (cf m : Nat)
    (ps : List Nat) (s : AppState),
    unregCount env s < fuel →
    (registerModule env cf fuel m ps s).isSome = true := by
  intro fuel
  induction fuel with
  | zero => intro env cf m ps s hs; exact absurd hs (Nat.not_lt_zero _)
  | succ f ihf =>
      intro env cf m ps s hs
      rw [registerModule.eq_def]
      by_cases hm : alistHas s.moduleProviders m = true
      · rw [if_pos hm]; rfl
      · rw [if_neg hm]
        dsimp only
        by_cases hdom : m ∈ env.modules.map Prod.fst
        · have hs0 : unregCount env
              { s with moduleProviders := alistSet s.moduleProviders m [] } < f := by
            have hlt := unreg_mark_lt env m s hdom (by simpa using hm)
            omega
          obtain ⟨s1, hri⟩ := Option.isSome_iff_exists.mp
            (registerImports_total_aux env cf f (fun m ps s h => ihf env cf m ps s h)
              (env.moduleInfo m).imports m ps _ hs0)
          rw [hri]
          dsimp only
          have hs1 : unregCount env s1 < f := by
            refine Nat.lt_of_le_of_lt ?_ hs0
            refine unreg_le_of_mp_imp env _ s1 ?_
            intro u hu
            exact registerImports_mp_mono_aux env cf f
              (fun m ps s s' h => registerModule_mp_mono f env cf m ps s s' h)
              (env.moduleInfo m).imports m ps _ s1 hri u hu
          obtain ⟨s2, hre⟩ := Option.isSome_iff_exists.mp
            (registerExports_total_aux env cf f (fun m ps s h => ihf env cf m ps s h)
              (env.moduleInfo m).exports (env.moduleInfo m).providers
              (env.moduleInfo m).isGlobal ps s1 hs1)
          rw [hre]
          rfl
        · rw [moduleInfo_default env m hdom]
          simp [registerImports, registerExports]

/-- Environment for claim C9: modules 7 and 8 import each other (a cycle). -/
def c9Env : Env :=
  { modules := [(7, { imports := [8] }), (8, { imports := [7] })] }

/-- Claim C9: `registerModule` terminates on every finite module graph,
cyclic or not. A module is marked registered before its imports are
iterated, so a re-entrant call returns immediately through the guard
(first conjunct); consequently the module-level recursion needs only as
much depth as there are not-yet-registered known modules: with fuel
exceeding `unregCount`, registration always completes instead of running
out of fuel (second conjunct). -/
theorem c9_registerModule_terminates :
    (∀ (env : Env) (cf fuel m : Nat) (ps : List Nat) (s : AppState),
        alistHas s.moduleProviders m = true →
        registerModule env cf fuel m ps s = some s)
    ∧ (∀ (env : Env) (cf fuel m : Nat) (ps : List Nat) (s : AppState),
        unregCount env s < fuel →
        (registerModule env cf fuel m ps s).isSome = true) := by
  constructor
  · intro env cf fuel m ps s h
    rw [registerModule.eq_def]
    simp [h]
  · intro env cf fuel m ps s h
    exact registerModule_total fuel env cf m ps s h

/-- Witness for C9 on the two-module cycle: a registered module returns
unchanged, and registering the cycle with fuel 3 > 2 unregistered
modules completes. -/
theorem c9_registerModule_terminates_witness :
    registerModule c9Env 1 3 7 [] { moduleProviders := [(7, [])] }
      = some { moduleProviders := [(7, [])] }
    ∧ (registerModule c9Env 1 3 7 [] {}).isSome = true :=
  ⟨c9_registerModule_terminates.1 c9Env 1 3 7 [] { moduleProviders := [(7, [])] }
      (by decide),
   c9_registerModule_terminates.2 c9Env 1 3 7 [] {} (by decide)⟩
